import Mathlib

/-!
Verification development for the pole-report reconciliation engine
(`pole-report-automator-excel`).

Strings are modelled as `List Char` (`Str`), JavaScript numbers as `ℚ`
(the arithmetic performed by the functions under study is decimal
arithmetic on heights and scores), nullable values as `Option`.
Each definition is a shallow embedding of the equally named function of
the repository; the doc comment of each definition names its source.
-/

set_option synthInstance.maxHeartbeats 1000000

/-- JavaScript strings, modelled as lists of characters. -/
abbrev Str := List Char

/-- Coerce a Lean string literal to the `Str` model. -/
def str (s : String) : Str := s.data

/-- ASCII decimal digit test, JS `\d` / `[0-9]` (code points 48-57). -/
def isDigitCh (c : Char) : Bool := 48 ≤ c.toNat && c.toNat ≤ 57

/-- ASCII uppercase test, JS `[A-Z]` (code points 65-90). -/
def isUpperCh (c : Char) : Bool := 65 ≤ c.toNat && c.toNat ≤ 90

/-- Whitespace as recognised by JS `trim` / `parseFloat` / `\s`
(on the character set these inputs use). -/
def isWsCh (c : Char) : Bool :=
  c = ' ' || c = '\t' || c = '\n' || c = '\r'

/-- JS `String.prototype.toLowerCase` (ASCII range). -/
def jsToLower (s : Str) : Str := s.map Char.toLower

/-- Is `pre` a prefix of `s`?  Auxiliary for substring containment. -/
def strIsPrefix : Str → Str → Bool
  | [], _ => true
  | _ :: _, [] => false
  | a :: as, b :: bs => a = b && strIsPrefix as bs

/-- JS `String.prototype.includes`: does `s` contain `sub` as a
contiguous substring (the empty string is contained in everything)? -/
def jsIncludes (s sub : Str) : Bool :=
  match s with
  | [] => strIsPrefix sub []
  | _ :: rest => strIsPrefix sub s || jsIncludes rest sub

/-- JS `String.prototype.trim`. -/
def jsTrim (s : Str) : Str :=
  ((s.dropWhile isWsCh).reverse.dropWhile isWsCh).reverse

/-- JS string falsiness / `||` chaining on strings: `a || b` yields `b`
exactly when `a` is the empty string. -/
def jsOrStr (a b : Str) : Str := if a = [] then b else a

/-- Value of a list of decimal digit characters (JS `parseInt(_, 10)`
on an all-digit string). -/
def digitsToNat (s : Str) : ℕ :=
  s.foldl (fun acc c => acc * 10 + (c.toNat - 48)) 0

/-- Decimal rendering of a natural number, JS template-string rendering
of a nonnegative integer-valued number. -/
def natToChars (n : ℕ) : Str := Nat.toDigits 10 n

/-- Decimal rendering of an integer-valued JS number. -/
def intToChars (i : ℤ) : Str :=
  if i < 0 then '-' :: natToChars i.natAbs else natToChars i.natAbs

/-- JS `Math.trunc` (the implicit rounding of `%`'s quotient). -/
def jsTrunc (q : ℚ) : ℤ := if q < 0 then ⌈q⌉ else ⌊q⌋

/-- JS `%` on numbers: remainder with truncated division. -/
def jsRem (a b : ℚ) : ℚ := a - b * jsTrunc (a / b)

/-- JS `Math.round`: round half toward positive infinity. -/
def jsRound (q : ℚ) : ℤ := ⌊q + 1/2⌋

/-- Magnitude part of JS `parseFloat`: an optional run of integer digits
followed by an optional `.` and fraction digits; `none` when neither
part contains a digit (`NaN`).  Exponents never occur in the inputs the
repository feeds to `parseFloat` and are not modelled. -/
def parseFloatMag (s : Str) : Option ℚ :=
  let ds := s.takeWhile isDigitCh
  let rest := s.drop ds.length
  let fs : Str :=
    match rest with
    | '.' :: r => r.takeWhile isDigitCh
    | _ => []
  if ds = [] && fs = [] then none
  else some ((digitsToNat ds : ℚ) + (digitsToNat fs : ℚ) / 10 ^ fs.length)

/-- JS `parseFloat` on a string: skip leading whitespace, optional sign,
then the longest numeric prefix; `none` models `NaN`. -/
def jsParseFloat (s : Str) : Option ℚ :=
  match s.dropWhile isWsCh with
  | '-' :: rest => (parseFloatMag rest).map (fun q => -q)
  | '+' :: rest => parseFloatMag rest
  | rest => parseFloatMag rest

/-- One split step for JS `String.prototype.split(':')`. -/
def jsSplitColon (s : Str) : List Str :=
  match s with
  | [] => [[]]
  | ':' :: rest => [] :: jsSplitColon rest
  | c :: rest =>
    match jsSplitColon rest with
    | [] => [[c]]
    | p :: ps => (c :: p) :: ps

/-- Attempt the regex `(\d+)'[-\s]*(\d+)"` anchored at the start of `s`
(`src/src/hooks/use-toast.ts:120`); greedy digit runs, then `'`, then a
run of dashes/whitespace, then digits, then `"`. -/
def matchFeetInchesAt (s : Str) : Option (ℕ × ℕ) :=
  let ds := s.takeWhile isDigitCh
  if ds = [] then none
  else
    match s.drop ds.length with
    | '\'' :: rest =>
      let seps := rest.takeWhile (fun c => c = '-' || isWsCh c)
      let rest2 := rest.drop seps.length
      let ds2 := rest2.takeWhile isDigitCh
      if ds2 = [] then none
      else
        match rest2.drop ds2.length with
        | '"' :: _ => some (digitsToNat ds, digitsToNat ds2)
        | _ => none
    | _ => none

/-- Leftmost match of the feet-inches regex anywhere in the string
(JS `String.prototype.match` with an unanchored pattern). -/
def findFeetInches : Str → Option (ℕ × ℕ)
  | [] => none
  | c :: rest =>
    match matchFeetInchesAt (c :: rest) with
    | some m => some m
    | none => findFeetInches rest

/-- `parseHeightToInches` (`src/src/hooks/use-toast.ts:85`), string
input path (numeric inputs are passed through unchanged by the source
and play no part in the round-trip claim).  Mirrors the source order:
trim, empty check, `parseFloat`, `ft:in` colon format, `ft'-in"` regex
format, otherwise `null`. -/
def parseHeightToInches (s : Str) : Option ℚ :=
  let heightStr := jsTrim s
  if heightStr = [] then none
  else
    match jsParseFloat heightStr with
    | some numericValue => some numericValue
    | none =>
      let colonResult : Option ℚ :=
        if jsIncludes heightStr [':'] then
          match jsSplitColon heightStr with
          | [p1, p2] =>
            match jsParseFloat p1, jsParseFloat p2 with
            | some feet, some inches => some (feet * 12 + inches)
            | _, _ => none
          | _ => none
        else none
      match colonResult with
      | some v => some v
      | none =>
        match findFeetInches heightStr with
        | some (feet, inches) => some ((feet : ℚ) * 12 + inches)
        | none => none

/-- JS regex `/[A-Z]{2}\d+/` anchored at the start of the string:
two uppercase letters followed by a greedy, nonempty run of digits
(`src/src/services/poleDataProcessor.ts:2175`). -/
def matchTwoLetterDigitsAt (s : Str) : Option Str :=
  match s with
  | a :: b :: rest =>
    if isUpperCh a && isUpperCh b then
      let ds := rest.takeWhile isDigitCh
      if ds = [] then none else some (a :: b :: ds)
    else none
  | _ => none

/-- Leftmost match of `/[A-Z]{2}\d+/` anywhere in the string. -/
def findTwoLetterDigits : Str → Option Str
  | [] => none
  | c :: rest =>
    match matchTwoLetterDigitsAt (c :: rest) with
    | some m => some m
    | none => findTwoLetterDigits rest

/-- JS regex `/[A-Z]{1,2}[0-9]+/` anchored at the start of the string:
the greedy quantifier tries two uppercase letters first and backtracks
to one (`src/src/services/poleDataProcessor.ts:2182`). -/
def matchLetterDigitsAt (s : Str) : Option Str :=
  match s with
  | a :: b :: rest =>
    if isUpperCh a then
      if isUpperCh b then
        let ds := rest.takeWhile isDigitCh
        if ds = [] then none else some (a :: b :: ds)
      else if isDigitCh b then
        some (a :: b :: rest.takeWhile isDigitCh)
      else none
    else none
  | _ => none

/-- Leftmost match of `/[A-Z]{1,2}[0-9]+/` anywhere in the string. -/
def findLetterDigits : Str → Option Str
  | [] => none
  | c :: rest =>
    match matchLetterDigitsAt (c :: rest) with
    | some m => some m
    | none => findLetterDigits rest

/-- JS `replace` of the anchored pattern `^\d+` followed by a dash,
with the empty string: drop a leading nonempty digit run plus dash,
when present (`src/src/services/poleDataProcessor.ts:2189`). -/
def stripLeadingNumDash (s : Str) : Str :=
  let ds := s.takeWhile isDigitCh
  if ds = [] then s
  else
    match s.drop ds.length with
    | '-' :: rest => rest
    | _ => s

/-- `_canonicalizePoleID` (`src/src/services/poleDataProcessor.ts:2168`):
`"Unknown"` for empty input; else the first `/[A-Z]{2}\d+/` match; else
the first `/[A-Z]{1,2}[0-9]+/` match; else the input with a leading
`digits-dash` prefix removed (returned unchanged when nothing matches). -/
def canonicalizePoleID (poleID : Str) : Str :=
  if poleID = [] then str "Unknown"
  else
    match findTwoLetterDigits poleID with
    | some m => m
    | none =>
      match findLetterDigits poleID with
      | some m => m
      | none => stripLeadingNumDash poleID

/-- `formatHeightToString` (`src/src/hooks/use-toast.ts:138`):
`null` renders as `"N/A"`; otherwise `Math.floor(h/12)` feet and
`Math.round(h % 12)` inches with the `inches = 12` carry. -/
def formatHeightToString (heightInches : Option ℚ) : Str :=
  match heightInches with
  | none => str "N/A"
  | some h =>
    let feet : ℤ := ⌊h / 12⌋
    let inches : ℤ := jsRound (jsRem h 12)
    if inches = 12 then
      intToChars (feet + 1) ++ str "'-0\""
    else
      intToChars feet ++ ['\''] ++ ['-'] ++ intToChars inches ++ ['"']

/-! ## Processed Katapult (field-survey) data

Shapes of `ProcessedResults` as produced by `processKatapultData` and
consumed by the processor (`src/src/hooks/use-toast.ts:50`); the
`category` field and its `WireCategory` enum come from the
`katapultDataProcessor` module the processor imports
(`src/src/services/poleDataProcessor.ts:5`), whose three enum values
are visible at every use site. -/

/-- Wire classification enum (`WireCategory`). -/
inductive WireCategory
  | COMMUNICATION
  | CPS_ELECTRICAL
  | OTHER
deriving DecidableEq, Repr

/-- One photo-derived wire observation (`WireObservation`), heights in
inches; `none` models `null`. -/
structure WireObservation where
  originalHeightInches : Option ℚ
  proposedHeightInches : Option ℚ
deriving DecidableEq, Repr

/-- One wire of a Katapult connection (`WireData`), as aggregated by
`processKatapultData`. -/
structure WireData where
  company : Str
  cableType : Str
  category : WireCategory
  midspanObservations : List WireObservation
  lowestExistingMidspanHeight : Option ℚ
  finalProposedMidspanHeight : Option ℚ
deriving DecidableEq, Repr

/-- One Katapult connection (`ConnectionData`); `wires` keeps the
iteration order of the source's trace-id-keyed record. -/
structure ConnectionData where
  fromPoleId : Str
  toPoleId : Str
  buttonType : Str
  isRefConnection : Bool
  wires : List WireData
deriving DecidableEq, Repr

/-- `ProcessedResults`: output of `processKatapultData`, input to the
mid-span matching of the processor.  The raw-JSON traversal that builds
it is upstream of every claim and is not modelled; the model consumes
its declared output shape. -/
structure ProcessedResults where
  connections : List ConnectionData
deriving DecidableEq, Repr

/-- SPIDAcalc wire/attachment fields read by the processor
(`owner.id`, `clientItem.description/type/size`,
`attachmentHeight.value` in meters, `id`). -/
structure SpidaWire where
  id : Option Str
  ownerId : Option Str
  clientItemDescription : Option Str
  clientItemType : Option Str
  clientItemSize : Option Str
  attachmentHeightValue : Option ℚ
deriving DecidableEq, Repr

/-- JS `a?.b || dflt` on a string field: `undefined` and the empty
string both fall through to the default. -/
def jsOrOptStr (a : Option Str) (b : Str) : Str :=
  match a with
  | none => b
  | some s => if s = [] then b else s

/-- JS `a?.b || dflt` on a numeric field: `undefined` and `0` both fall
through to the default. -/
def jsOrOptNum (a : Option ℚ) (b : ℚ) : ℚ :=
  match a with
  | none => b
  | some v => if v = 0 then b else v

/-- `_metersToFeet` (`src/src/services/poleDataProcessor.ts:2202`). -/
def metersToFeet (meters : ℚ) : ℚ := meters * 3.28084

/-- `spidaWire.owner?.id || ""`
(`src/src/services/poleDataProcessor.ts:1664`). -/
def spidaOwnerOf (w : SpidaWire) : Str := jsOrOptStr w.ownerId []

/-- `spidaWire.clientItem?.description || clientItem?.type ||
clientItem?.size || ""` (`src/src/services/poleDataProcessor.ts:1665`). -/
def spidaTypeOf (w : SpidaWire) : Str :=
  jsOrOptStr w.clientItemDescription
    (jsOrOptStr w.clientItemType (jsOrOptStr w.clientItemSize []))

/-- `_metersToFeet(spidaWire.attachmentHeight?.value || 0) * 12`
(`src/src/services/poleDataProcessor.ts:1660`). -/
def spidaHeightInchesOf (w : SpidaWire) : ℚ :=
  metersToFeet (jsOrOptNum w.attachmentHeightValue 0) * 12

/-! ## Mid-span match scoring (`_getMidSpanProposedHeight`,
`src/src/services/poleDataProcessor.ts:1744`) -/

/-- The company-alias disjunction of the scoring loop
(`src/src/services/poleDataProcessor.ts:1781`): both arguments are
already lowercased by the caller. -/
def companyAliasHit (spidaDescLower wireOwnerLower : Str) : Bool :=
  (jsIncludes spidaDescLower (str "at&t") && jsIncludes wireOwnerLower (str "att")) ||
  (jsIncludes spidaDescLower (str "att") && jsIncludes wireOwnerLower (str "at&t")) ||
  (jsIncludes spidaDescLower (str "charter") && jsIncludes wireOwnerLower (str "spectrum")) ||
  (jsIncludes spidaDescLower (str "spectrum") && jsIncludes wireOwnerLower (str "charter")) ||
  (jsIncludes spidaDescLower (str "cps") && jsIncludes wireOwnerLower (str "cps"))

/-- The shared-keyword disjunction of the scoring loop
(`src/src/services/poleDataProcessor.ts:1790`). -/
def keywordHit (spidaDescLower wireTypeLower : Str) : Bool :=
  (jsIncludes spidaDescLower (str "fiber") && jsIncludes wireTypeLower (str "fiber")) ||
  (jsIncludes spidaDescLower (str "service") && jsIncludes wireTypeLower (str "service")) ||
  (jsIncludes spidaDescLower (str "drop") && jsIncludes wireTypeLower (str "drop")) ||
  (jsIncludes spidaDescLower (str "primary") && jsIncludes wireTypeLower (str "primary")) ||
  (jsIncludes spidaDescLower (str "neutral") && jsIncludes wireTypeLower (str "neutral"))

/-- The running `bestHeightDiff` minimum over the wire's mid-span
observations with a non-null height
(`src/src/services/poleDataProcessor.ts:1802`); `none` models the
initial `Number.MAX_VALUE` surviving the loop. -/
def bestHeightDiff (obs : List WireObservation) (h : ℚ) : Option ℚ :=
  match obs with
  | [] => none
  | o :: rest =>
    match o.originalHeightInches, bestHeightDiff rest h with
    | none, r => r
    | some v, none => some |v - h|
    | some v, some r => some (min |v - h| r)

/-- The height-proximity component of the scoring loop
(`src/src/services/poleDataProcessor.ts:1800`): only computed when the
wire has mid-span observations, only added when the best difference is
under 60 inches, worth `max 0 (5 - diff/12)`. -/
def heightBonus (obs : List WireObservation) (h : ℚ) : ℚ :=
  if obs = [] then 0
  else
    match bestHeightDiff obs h with
    | none => 0
    | some d => if d < 60 then max 0 (5 - d / 12) else 0

/-- The per-candidate match score of `_getMidSpanProposedHeight`
(`src/src/services/poleDataProcessor.ts:1752`), accumulated in the
source order: owner (exact 25 / partial 15), type (exact 20 / partial
10), company-alias bonus 10, shared-keyword bonus 10, height proximity. -/
def computeMatchScore (spidaOwner spidaType attacherDescription : Str)
    (spidaAttachHeightInches : ℚ) (wire : WireData) : ℚ :=
  let wireOwner := wire.company
  let wireType := wire.cableType
  let s1 : ℚ :=
    if jsToLower wireOwner = jsToLower spidaOwner then 25
    else if jsIncludes (jsToLower wireOwner) (jsToLower spidaOwner) ||
            jsIncludes (jsToLower spidaOwner) (jsToLower wireOwner) then 15
    else 0
  let s2 : ℚ := s1 +
    (if jsToLower wireType = jsToLower spidaType then 20
     else if jsIncludes (jsToLower wireType) (jsToLower spidaType) ||
             jsIncludes (jsToLower spidaType) (jsToLower wireType) then 10
     else 0)
  let spidaDescLower := jsToLower attacherDescription
  let s3 : ℚ := s2 + (if companyAliasHit spidaDescLower (jsToLower wireOwner) then 10 else 0)
  let s4 : ℚ := s3 + (if keywordHit spidaDescLower (jsToLower wireType) then 10 else 0)
  s4 + heightBonus wire.midspanObservations spidaAttachHeightInches

/-- One accepted candidate of the `wireMatches` array
(`src/src/services/poleDataProcessor.ts:1820`). -/
structure WireMatch where
  wire : WireData
  score : ℚ
deriving DecidableEq, Repr

/-- The `matchScore >= 10` acceptance filter building `wireMatches` in
candidate order (`src/src/services/poleDataProcessor.ts:1819`). -/
def collectWireMatches (spidaOwner spidaType attacherDescription : Str)
    (spidaAttachHeightInches : ℚ) (ws : List WireData) : List WireMatch :=
  ws.filterMap (fun w =>
    let s := computeMatchScore spidaOwner spidaType attacherDescription spidaAttachHeightInches w
    if 10 ≤ s then some ⟨w, s⟩ else none)

/-- Insert one element into a list already sorted by descending score,
before the first element of smaller-or-equal score: one step of a
stable descending sort. -/
def insertByScore (m : WireMatch) : List WireMatch → List WireMatch
  | [] => [m]
  | x :: xs => if x.score ≤ m.score then m :: x :: xs else x :: insertByScore m xs

/-- `wireMatches.sort((a, b) => b.score - a.score)`
(`src/src/services/poleDataProcessor.ts:1828`): JS `Array.prototype.sort`
is stable, so equal scores keep first-encountered order; modelled as a
stable insertion sort by descending score. -/
def sortByScoreDesc : List WireMatch → List WireMatch
  | [] => []
  | m :: ms => insertByScore m (sortByScoreDesc ms)

/-- The winning candidate: head of the sorted accepted matches
(`src/src/services/poleDataProcessor.ts:1831`). -/
def pickBestWire (spidaOwner spidaType attacherDescription : Str)
    (spidaAttachHeightInches : ℚ) (ws : List WireData) : Option WireData :=
  match sortByScoreDesc (collectWireMatches spidaOwner spidaType attacherDescription
      spidaAttachHeightInches ws) with
  | [] => none
  | m :: _ => some m.wire

/-- Height selection for the winning wire
(`src/src/services/poleDataProcessor.ts:1836`): a proposed mid-span
height is used directly, an existing-only height is parenthesised, and
no height data yields `"N/A"`. -/
def resolveMatchedWire (w : WireData) : Str :=
  match w.finalProposedMidspanHeight with
  | some p => formatHeightToString (some p)
  | none =>
    match w.lowestExistingMidspanHeight with
    | some e => '(' :: (formatHeightToString (some e) ++ [')'])
    | none => str "N/A"

/-- The connection filter feeding the underground check
(`src/src/services/poleDataProcessor.ts:1642`): endpoint containment in
either orientation, or any connection touching the from-pole for REF
spans. -/
def connTouchesForUG (isRef : Bool) (fromPoleId toPoleId : Str) (c : ConnectionData) : Bool :=
  (jsIncludes c.fromPoleId fromPoleId && jsIncludes c.toPoleId toPoleId) ||
  (jsIncludes c.fromPoleId toPoleId && jsIncludes c.toPoleId fromPoleId) ||
  (isRef && (jsIncludes c.fromPoleId fromPoleId || jsIncludes c.toPoleId fromPoleId))

/-- Underground-path test on a connection
(`src/src/services/poleDataProcessor.ts:1649`). -/
def isUndergroundConn (c : ConnectionData) : Bool :=
  c.buttonType = str "underground_path" || jsIncludes c.buttonType (str "underground")

/-- REF-span connection selection fallback chain
(`src/src/services/poleDataProcessor.ts:1675`): connections touching
the pole, narrowed to service/drop/ref connections for service-drop
descriptions, then the first REF connection, first service/drop, first
non-aerial, finally the first connection at all. -/
def findRefConnection (fromPoleId attacherDescription : Str)
    (conns : List ConnectionData) : Option ConnectionData :=
  let fromPoleConnections := conns.filter (fun c =>
    jsIncludes c.fromPoleId fromPoleId || jsIncludes c.toPoleId fromPoleId)
  let descriptionLower := jsToLower attacherDescription
  let isServiceDrop := jsIncludes descriptionLower (str "service") ||
    jsIncludes descriptionLower (str "drop")
  let narrowed :=
    if isServiceDrop then
      let serviceConnections := fromPoleConnections.filter (fun c =>
        jsIncludes c.buttonType (str "service") || jsIncludes c.buttonType (str "drop") ||
        c.buttonType = str "ref")
      if serviceConnections ≠ [] then serviceConnections else fromPoleConnections
    else fromPoleConnections
  match narrowed.find? (fun c => c.isRefConnection) with
  | some c => some c
  | none =>
    match narrowed.find? (fun c =>
        jsIncludes c.buttonType (str "service") || jsIncludes c.buttonType (str "drop")) with
    | some c => some c
    | none =>
      match narrowed.find? (fun c => !jsIncludes c.buttonType (str "aerial")) with
      | some c => some c
      | none => narrowed.head?

/-- Direct-span connection selection
(`src/src/services/poleDataProcessor.ts:1732`). -/
def findDirectConnection (fromPoleId toPoleId : Str)
    (conns : List ConnectionData) : Option ConnectionData :=
  conns.find? (fun c =>
    (jsIncludes c.fromPoleId fromPoleId && jsIncludes c.toPoleId toPoleId) ||
    (jsIncludes c.fromPoleId toPoleId && jsIncludes c.toPoleId fromPoleId))

/-- `_getMidSpanProposedHeight` (`src/src/services/poleDataProcessor.ts:1617`),
from the processed-Katapult stage on: missing Katapult data yields
`"N/A"`; an underground connection touching the span yields `"UG"`;
otherwise the span's connection is located, its wires are scored and
filtered at threshold 10, and the best match's mid-span heights are
formatted (`null` results and no-match cases yield `"N/A"`). -/
def getMidSpanProposedHeight (katapultData : Option ProcessedResults)
    (fromPoleId toPoleId attacherDescription : Str) (spidaWire : SpidaWire)
    (isRefConnection : Bool) : Str :=
  match katapultData with
  | none => str "N/A"
  | some processed =>
    let connections := processed.connections.filter
      (connTouchesForUG isRefConnection fromPoleId toPoleId)
    if connections.any isUndergroundConn then str "UG"
    else
      let spidaOwner := spidaOwnerOf spidaWire
      let spidaType := spidaTypeOf spidaWire
      let spidaAttachHeightInches := spidaHeightInchesOf spidaWire
      let matchingConnection :=
        if isRefConnection then
          findRefConnection fromPoleId attacherDescription processed.connections
        else
          findDirectConnection fromPoleId toPoleId processed.connections
      match matchingConnection with
      | none => str "N/A"
      | some conn =>
        match pickBestWire spidaOwner spidaType attacherDescription
            spidaAttachHeightInches conn.wires with
        | none => str "N/A"
        | some w => resolveMatchedWire w

/-! ## Claim-side renditions for the mid-span score (refinement
comparison for the scoring claim) -/

/-- Owner component as both the code and the spec state it: +25 exact,
+15 partial substring either direction. -/
def ownerMatchScore (wireOwner spidaOwner : Str) : ℚ :=
  if jsToLower wireOwner = jsToLower spidaOwner then 25
  else if jsIncludes (jsToLower wireOwner) (jsToLower spidaOwner) ||
          jsIncludes (jsToLower spidaOwner) (jsToLower wireOwner) then 15
  else 0

/-- Type component as both the code and the spec state it: +20 exact,
+10 partial. -/
def typeMatchScore (wireType spidaType : Str) : ℚ :=
  if jsToLower wireType = jsToLower spidaType then 20
  else if jsIncludes (jsToLower wireType) (jsToLower spidaType) ||
          jsIncludes (jsToLower spidaType) (jsToLower wireType) then 10
  else 0

/-- Company-alias component of the code: a single +10 when the alias
disjunction fires, regardless of how many alias pairs fire. -/
def companyAliasBonus (spidaDescLower wireOwnerLower : Str) : ℚ :=
  if companyAliasHit spidaDescLower wireOwnerLower then 10 else 0

/-- Shared-keyword component of the code: a single +10 when the
keyword disjunction fires. -/
def keywordBonus (spidaDescLower wireTypeLower : Str) : ℚ :=
  if keywordHit spidaDescLower wireTypeLower then 10 else 0

/-- The known alias pairs of the specification's scoring sentence. -/
def specAliasPairs : List (Str × Str) :=
  [(str "at&t", str "att"), (str "charter", str "spectrum"), (str "cps", str "cps")]

/-- Does one side (lowercased) reference an alias pair, i.e. mention
either of its members? -/
def sideReferencesPair (side : Str) (p : Str × Str) : Bool :=
  jsIncludes side p.1 || jsIncludes side p.2

/-- Rendition of the claim's scoring formula, following the
specification's words (not the source): owner and type components as
stated, `+10` FOR EACH alias pair referenced by both sides, and a
height-proximity bonus of at most +5 scaling linearly down to 0 at a
24-inch height difference, applied only when a field observation
height exists. -/
def specMatchScore (spidaOwner spidaType attacherDescription : Str)
    (spidaAttachHeightInches : ℚ) (wire : WireData) : ℚ :=
  let descLower := jsToLower attacherDescription
  let ownerLower := jsToLower wire.company
  let aliasCount : ℚ := ((specAliasPairs.filter (fun p =>
    sideReferencesPair descLower p && sideReferencesPair ownerLower p)).length : ℚ)
  let specHeightBonus : ℚ :=
    match bestHeightDiff wire.midspanObservations spidaAttachHeightInches with
    | none => 0
    | some d => if d < 24 then 5 * (1 - d / 24) else 0
  ownerMatchScore wire.company spidaOwner + typeMatchScore wire.cableType spidaType +
    10 * aliasCount + specHeightBonus

/-- Concrete candidate wire for the scoring comparison: owner matches
exactly, type does not match at all, no alias or keyword words occur,
and one field observation sits 36 inches away from the structural
attachment height. -/
def scoringProbeWire : WireData :=
  { company := str "acme"
    cableType := str "bbb"
    category := WireCategory.OTHER
    midspanObservations := [⟨some 36, none⟩]
    lowestExistingMidspanHeight := some 36
    finalProposedMidspanHeight := none }

/-! ## Pole-wide lowest existing mid-span heights
(`_extractExistingMidspanData`, `src/src/services/poleDataProcessor.ts:1408`) -/

/-- A Katapult field-survey node as consumed here: its internal id
(`katapultPoleData.id`) and the pole-number attribute located by the
candidate-key search of `_createPoleLookupMaps`
(`src/src/services/poleDataProcessor.ts:883`), `none` when no candidate
key holds a truthy value. -/
structure KatapultNode where
  id : Option Str
  poleNumber : Option Str
deriving DecidableEq, Repr

/-- The pair of per-category results for report columns J and K. -/
structure MidspanHeights where
  com : Str
  electrical : Str
deriving DecidableEq, Repr

/-- Running minimum of the `Math.min`/found-flag pair of the source:
`none` models the untouched `Number.MAX_VALUE` with found flag false. -/
def optMinInsert (acc : Option ℚ) (h : ℚ) : Option ℚ :=
  match acc with
  | none => some h
  | some m => some (min m h)

/-- `_extractExistingMidspanData` (`src/src/services/poleDataProcessor.ts:1408`):
Katapult-only per the source comment ("no fallback to SPIDAcalc"); with
no Katapult data or no matched field node both results are `"N/A"`;
otherwise the minimum `lowestExistingMidspanHeight` per wire category
over aerial connections touching the node. -/
def extractExistingMidspanData (katapultData : Option ProcessedResults)
    (katapultPoleData : Option KatapultNode) : MidspanHeights :=
  match katapultData, katapultPoleData with
  | some processed, some node =>
    let katapultNodeId := jsOrOptStr node.id []
    let poleConnections := processed.connections.filter (fun c =>
      c.fromPoleId = katapultNodeId || c.toPoleId = katapultNodeId)
    -- the source `continue`s unless buttonType === 'aerial_path' or it
    -- includes 'aerial'
    let aerial := poleConnections.filter (fun c =>
      c.buttonType = str "aerial_path" || jsIncludes c.buttonType (str "aerial"))
    let wires := (aerial.map ConnectionData.wires).flatten
    let acc := wires.foldl (fun (acc : Option ℚ × Option ℚ) w =>
      match w.lowestExistingMidspanHeight with
      | none => acc
      | some h =>
        if w.category = WireCategory.COMMUNICATION then (optMinInsert acc.1 h, acc.2)
        else if w.category = WireCategory.CPS_ELECTRICAL then (acc.1, optMinInsert acc.2 h)
        else acc) (none, none)
    { com := match acc.1 with
        | some m => formatHeightToString (some m)
        | none => str "N/A"
      electrical := match acc.2 with
        | some m => formatHeightToString (some m)
        | none => str "N/A" }
  | _, _ => ⟨str "N/A", str "N/A"⟩

/-- Minimum of a list of rationals, `none` on the empty list. -/
def listMinQ (l : List ℚ) : Option ℚ := l.foldl optMinInsert none

/-- The communication-category height of a wire, when present. -/
def comHeightOf (w : WireData) : Option ℚ :=
  match w.lowestExistingMidspanHeight with
  | none => none
  | some h => if w.category = WireCategory.COMMUNICATION then some h else none

/-- The electrical-category height of a wire, when present. -/
def elecHeightOf (w : WireData) : Option ℚ :=
  match w.lowestExistingMidspanHeight with
  | none => none
  | some h => if w.category = WireCategory.CPS_ELECTRICAL then some h else none

/-- Rendition of the claim's fallback rule, following the
specification's words (not the source): per-category heights come from
the field survey when any field data exists for the pole, and fall
back to the structural model's attachment heights when and only when
no field data exists at all. -/
def specLowestExistingHeights (fieldHeights : Option (List (WireCategory × ℚ)))
    (structuralHeights : List (WireCategory × ℚ)) : MidspanHeights :=
  let source := match fieldHeights with
    | some hs => hs
    | none => structuralHeights
  let pick := fun (cat : WireCategory) =>
    match listMinQ ((source.filter (fun p => p.1 = cat)).map Prod.snd) with
    | some m => formatHeightToString (some m)
    | none => str "N/A"
  ⟨pick WireCategory.COMMUNICATION, pick WireCategory.CPS_ELECTRICAL⟩

/-! ## Field-node lookup map construction (`_createPoleLookupMaps`,
`src/src/services/poleDataProcessor.ts:877`) -/

/-- JS `Map.prototype.set`: overwrite in place when the key exists
(keeping its insertion position), append otherwise. -/
def jsMapSet {α : Type} (m : List (Str × α)) (k : Str) (v : α) : List (Str × α) :=
  if m.any (fun p => p.1 = k) then
    m.map (fun p => if p.1 = k then (k, v) else p)
  else m ++ [(k, v)]

/-- JS `Map.prototype.get`, `none` for a missing key. -/
def jsMapGet {α : Type} (m : List (Str × α)) (k : Str) : Option α :=
  (m.find? (fun p => p.1 = k)).map Prod.snd

/-- The Katapult node loop of `_createPoleLookupMaps`
(`src/src/services/poleDataProcessor.ts:878`): each node with a truthy
pole-number attribute is `set` into the map under its canonicalized
pole id — an unconditional `Map.set`. -/
def buildKatapultPoleLookupMap (nodes : List KatapultNode) : List (Str × KatapultNode) :=
  nodes.foldl (fun m node =>
    match node.poleNumber with
    | none => m
    | some pn => if pn = [] then m else jsMapSet m (canonicalizePoleID pn) node) []

/-- Rendition of the claim's ambiguity policy, following the
specification's words (not the source): when two field nodes normalize
to the same canonical id, the FIRST encountered wins. -/
def buildFirstWinsLookupMap (nodes : List KatapultNode) : List (Str × KatapultNode) :=
  nodes.foldl (fun m node =>
    match node.poleNumber with
    | none => m
    | some pn =>
      if pn = [] then m
      else
        let k := canonicalizePoleID pn
        if m.any (fun p => p.1 = k) then m else m ++ [(k, node)]) []

/-! ## Batch processing (`processData`,
`src/src/services/poleDataProcessor.ts:119`) -/

/-- A structured processing error (`ProcessingError`), details elided. -/
structure ProcessingError where
  code : Str
  message : Str
deriving DecidableEq, Repr

/-- One entry of `spidaData.leads[0].locations`, as far as the batch
loop reads it directly. -/
structure PoleLocation where
  label : Str
deriving DecidableEq, Repr

/-- The per-pole loop of `processData`
(`src/src/services/poleDataProcessor.ts:151`): the work done for one
pole (canonicalization, Katapult lookup, `_extractPoleData`) is taken
as a function argument; `Except.error` models a thrown exception,
`Except.ok none` models `_extractPoleData` returning a falsy record.
A throwing pole contributes one `POLE_PROCESSING_ERROR` naming the
pole's label and the loop continues. -/
def processPoleLocations {α : Type} (extract : PoleLocation → Except Str (Option α))
    (locations : List PoleLocation) : List α × List ProcessingError :=
  locations.foldl (fun acc loc =>
    match extract loc with
    | Except.ok (some d) => (acc.1 ++ [d], acc.2)
    | Except.ok none => acc
    | Except.error _ =>
      (acc.1, acc.2 ++ [⟨str "POLE_PROCESSING_ERROR",
        str "Error processing pole " ++ loc.label⟩])) ([], [])

/-- `processData` (`src/src/services/poleDataProcessor.ts:119`) for
loaded data, from the structure check on: a missing
`leads[0].locations` is run-fatal (`INVALID_STRUCTURE`, `false`);
otherwise the per-pole loop runs and the run succeeds exactly when
`processedPoles.length > 0`. -/
def processData {α : Type} (extract : PoleLocation → Except Str (Option α))
    (spidaLocations : Option (List PoleLocation)) :
    Bool × List α × List ProcessingError :=
  match spidaLocations with
  | none =>
    (false, [], [⟨str "INVALID_STRUCTURE",
      str "SPIDA data does not contain the expected leads[0].locations structure"⟩])
  | some locations =>
    let res := processPoleLocations extract locations
    (decide (0 < res.1.length), res.1, res.2)

/-! ## Span extraction (`_extractSpanData`,
`src/src/services/poleDataProcessor.ts:1505`) -/

/-- One wire end point of the recommended design
(`wireEndPoint.{type,direction,structureLabel,wires}`). -/
structure WireEndPoint where
  type : Option Str
  direction : Option ℚ
  structureLabel : Option Str
  wires : Option (List Str)
deriving DecidableEq, Repr

/-- A design's structure as read here: wire and equipment lists plus
wire end points. -/
structure SpidaDesign where
  wires : List SpidaWire
  equipments : List SpidaWire
  wireEndPoints : Option (List WireEndPoint)
deriving DecidableEq, Repr

/-- One attachment row (`AttachmentData`,
`src/src/services/poleDataProcessor.ts:1578`). -/
structure AttachmentData where
  description : Str
  existingHeight : Str
  proposedHeight : Str
  midSpanProposed : Str
deriving DecidableEq, Repr

/-- One span section (`SpanData`,
`src/src/services/poleDataProcessor.ts:1540`). -/
structure SpanData where
  spanHeader : Str
  attachments : List AttachmentData
deriving DecidableEq, Repr

/-- `_createWireMap` (`src/src/services/poleDataProcessor.ts:1870`):
id-keyed map over the design's wires then equipments, skipping entries
without a truthy id. -/
def createWireMap (design : SpidaDesign) : List (Str × SpidaWire) :=
  let addAll := fun (m : List (Str × SpidaWire)) (ws : List SpidaWire) =>
    ws.foldl (fun m w =>
      match w.id with
      | none => m
      | some i => if i = [] then m else jsMapSet m i w) m
  addAll (addAll [] design.wires) design.equipments

/-- Falsiness of an optional string field (`undefined` or `""`). -/
def isFalsyOptStr (o : Option Str) : Bool :=
  match o with
  | none => true
  | some s => s = []

/-- `_findMatchingWire` (`src/src/services/poleDataProcessor.ts:1930`):
id lookup first, then a property match on `clientItem.type`,
`owner.id` and `clientItem.size` (strict JS `===`, so `undefined`
matches `undefined`); `none` when all three properties are falsy. -/
def findMatchingWire (recommendedWire : SpidaWire)
    (measuredWireMap : List (Str × SpidaWire)) : Option SpidaWire :=
  match recommendedWire.id with
  | some i =>
    if i ≠ [] then
      match jsMapGet measuredWireMap i with
      | some w => some w
      | none => findMatchingWireByProps recommendedWire measuredWireMap
    else findMatchingWireByProps recommendedWire measuredWireMap
  | none => findMatchingWireByProps recommendedWire measuredWireMap
where
  /-- The property-based fallback branch of `_findMatchingWire`. -/
  findMatchingWireByProps (recommendedWire : SpidaWire)
      (measuredWireMap : List (Str × SpidaWire)) : Option SpidaWire :=
    let wireType := recommendedWire.clientItemType
    let wireOwner := recommendedWire.ownerId
    let wireSize := recommendedWire.clientItemSize
    if isFalsyOptStr wireType && isFalsyOptStr wireOwner && isFalsyOptStr wireSize then none
    else
      (measuredWireMap.find? (fun p =>
        p.2.clientItemType = wireType && p.2.ownerId = wireOwner &&
        p.2.clientItemSize = wireSize)).map Prod.snd

/-- `_getAttachmentDescription` (`src/src/services/poleDataProcessor.ts:1962`). -/
def getAttachmentDescription (wire : SpidaWire) : Str :=
  let owner := jsOrOptStr wire.ownerId []
  let description := jsOrOptStr wire.clientItemDescription []
  let size := jsOrOptStr wire.clientItemSize []
  let ctype := jsOrOptStr wire.clientItemType []
  if description ≠ [] then jsTrim (owner ++ [' '] ++ description)
  else if size ≠ [] then jsTrim (owner ++ [' '] ++ size ++ [' '] ++ ctype)
  else jsTrim (owner ++ [' '] ++ ctype)

/-- JS integer `%` (sign of the dividend, truncated quotient). -/
def jsRemInt (a b : ℤ) : ℤ := a - b * (Int.tdiv a b)

/-- `_getDirection` (`src/src/services/poleDataProcessor.ts:2229`):
degrees to one of eight compass points; an out-of-range index reads
`undefined` from the array, rendered as the string "undefined". -/
def getDirection (degrees : ℚ) : Str :=
  let directions := [str "N", str "NE", str "E", str "SE", str "S", str "SW", str "W", str "NW"]
  let index : ℤ := jsRemInt (jsRound (jsRem degrees 360 / 45)) 8
  if 0 ≤ index then directions.getD index.toNat (str "undefined") else str "undefined"

/-- `_metersToFeetInches` (`src/src/services/poleDataProcessor.ts:2209`):
`undefined`/`null` renders `"N/A"`, otherwise whole feet plus rounded
inches with the carry at 12. -/
def metersToFeetInches (meters : Option ℚ) : Str :=
  match meters with
  | none => str "N/A"
  | some m =>
    let feet := metersToFeet m
    let wholeFeet : ℤ := ⌊feet⌋
    let inches : ℤ := jsRound ((feet - wholeFeet) * 12)
    if inches = 12 then intToChars (wholeFeet + 1) ++ str "'-0\""
    else intToChars wholeFeet ++ ['\''] ++ ['-'] ++ intToChars inches ++ ['"']

/-- `_isRefConnection` (`src/src/services/poleDataProcessor.ts:1607`). -/
def isRefConnectionOf (wep : WireEndPoint) : Bool :=
  let t := jsOrOptStr wep.type []
  t ≠ str "NEXT_POLE" && t ≠ str "PREVIOUS_POLE"

/-- `_generateSpanHeader` (`src/src/services/poleDataProcessor.ts:1895`). -/
def generateSpanHeader (wep : WireEndPoint) : Str :=
  let t := jsOrOptStr wep.type []
  if t = str "PREVIOUS_POLE" then str "Backspan"
  else
    let direction := match wep.direction with
      | some d => getDirection d
      | none => []
    let structureLabel := jsOrOptStr wep.structureLabel []
    if direction ≠ [] && structureLabel ≠ [] then
      str "Ref (" ++ direction ++ str ") to " ++ structureLabel
    else if direction ≠ [] then str "Ref (" ++ direction ++ [')']
    else if structureLabel ≠ [] then str "Ref to " ++ structureLabel
    else str "Ref"

/-- `_extractSpanData` (`src/src/services/poleDataProcessor.ts:1505`):
spans are built from the recommended design's wire end points; a wire
end point with no wires is skipped, attachments are built per resolved
wire id, and a span with no attachments is not pushed. -/
def extractSpanData (katapultData : Option ProcessedResults) (poleId : Str)
    (recommendedDesign measuredDesign : Option SpidaDesign) : List SpanData :=
  match recommendedDesign with
  | none => []
  | some recDesign =>
    match recDesign.wireEndPoints with
    | none => []
    | some weps =>
      let recommendedWireMap := createWireMap recDesign
      let measuredWireMap := match measuredDesign with
        | some m => createWireMap m
        | none => []
      weps.filterMap (fun wep =>
        match wep.wires with
        | none => none
        | some wireIds =>
          if wireIds = [] then none
          else
            let spanHeader := generateSpanHeader wep
            let isRef := isRefConnectionOf wep
            let toPoleId := jsOrOptStr wep.structureLabel []
            let attachments := wireIds.filterMap (fun wireId =>
              match jsMapGet recommendedWireMap wireId with
              | none => none
              | some recommendedWire =>
                let measuredWire := findMatchingWire recommendedWire measuredWireMap
                let description := getAttachmentDescription recommendedWire
                let existingHeight := match measuredWire with
                  | some mw => metersToFeetInches mw.attachmentHeightValue
                  | none => str "N/A"
                let proposedHeight := match recommendedWire.attachmentHeightValue with
                  | some v => if v = 0 then [] else metersToFeetInches (some v)
                  | none => []
                some ⟨description, existingHeight, proposedHeight,
                  getMidSpanProposedHeight katapultData poleId toPoleId description
                    recommendedWire isRef⟩)
            if attachments = [] then none else some ⟨spanHeader, attachments⟩)

/-- Format an optional minimum as the source does: a found minimum is
rendered, an untouched accumulator reads `"N/A"`. -/
def formatOrNA (o : Option ℚ) : Str :=
  match o with
  | some m => formatHeightToString (some m)
  | none => str "N/A"

/-! ## Concrete probe inputs used by witnesses -/

/-- A structural-model attachment whose owner is `acme`, type `aaa`,
with no attachment height. -/
def probeSpidaWire : SpidaWire :=
  ⟨none, some (str "acme"), some (str "aaa"), none, none, none⟩

/-- A candidate wire with no relation to the probe attachment: score 0. -/
def probeWireLow : WireData :=
  { company := str "nope"
    cableType := str "qqq"
    category := WireCategory.OTHER
    midspanObservations := []
    lowestExistingMidspanHeight := none
    finalProposedMidspanHeight := none }

/-- A candidate wire whose type partially matches the probe attachment
(`aaax` contains `aaa`): score exactly 10, the acceptance threshold. -/
def probeWireTen : WireData :=
  { company := str "xable"
    cableType := str "aaax"
    category := WireCategory.COMMUNICATION
    midspanObservations := []
    lowestExistingMidspanHeight := some 250
    finalProposedMidspanHeight := none }

/-- An aerial connection between `PL100` and `PL200` carrying both
probe candidates. -/
def probeConn : ConnectionData :=
  ⟨str "PL100", str "PL200", str "aerial_path", false, [probeWireLow, probeWireTen]⟩

/-- The same connection carrying only the below-threshold candidate. -/
def probeConnLow : ConnectionData :=
  ⟨str "PL100", str "PL200", str "aerial_path", false, [probeWireLow]⟩

/-! # Theorems -/

/-! ## Identifier normalizer -/

/-- A decimal digit character is not an uppercase letter. -/
lemma digit_not_upper {c : Char} (h : isDigitCh c = true) : isUpperCh c = false := by
  simp [isDigitCh, isUpperCh] at *
  omega

/-- Shape of a successful anchored `[A-Z]{2}\d+` match. -/
lemma matchTwoLetterDigitsAt_shape {l m : Str} (h : matchTwoLetterDigitsAt l = some m) :
    ∃ a b ds, m = a :: b :: ds ∧ isUpperCh a = true ∧ isUpperCh b = true ∧ ds ≠ [] ∧
      ∀ c ∈ ds, isDigitCh c = true := by
  match l with
  | [] => simp [matchTwoLetterDigitsAt] at h
  | [a] => simp [matchTwoLetterDigitsAt] at h
  | a :: b :: rest =>
    simp only [matchTwoLetterDigitsAt] at h
    split at h
    · split at h
      · exact absurd h (by simp)
      · next hu hds =>
        refine ⟨a, b, rest.takeWhile isDigitCh, ?_, ?_, ?_, hds, ?_⟩
        · simpa using h.symm
        · exact (Bool.and_eq_true _ _ ▸ hu).1
        · exact (Bool.and_eq_true _ _ ▸ hu).2
        · intro c hc
          exact List.mem_takeWhile_imp hc
    · exact absurd h (by simp)

/-- Shape of a successful unanchored `[A-Z]{2}\d+` search. -/
lemma findTwoLetterDigits_shape {s m : Str} (h : findTwoLetterDigits s = some m) :
    ∃ a b ds, m = a :: b :: ds ∧ isUpperCh a = true ∧ isUpperCh b = true ∧ ds ≠ [] ∧
      ∀ c ∈ ds, isDigitCh c = true := by
  induction s with
  | nil => simp [findTwoLetterDigits] at h
  | cons c rest ih =>
    simp only [findTwoLetterDigits] at h
    split at h
    · next hm => exact matchTwoLetterDigitsAt_shape (by rw [hm, h])
    · exact ih h

/-- A failed unanchored search fails at the head position and on the
tail. -/
lemma findTwoLetterDigits_none_parts {c : Char} {rest : Str}
    (h : findTwoLetterDigits (c :: rest) = none) :
    matchTwoLetterDigitsAt (c :: rest) = none ∧ findTwoLetterDigits rest = none := by
  simp only [findTwoLetterDigits] at h
  split at h
  · simp at h
  · next hm => exact ⟨hm, h⟩

/-- An all-digit string contains no `[A-Z]{2}\d+` match. -/
lemma allDigits_findTwoLetterDigits_none {l : Str} (h : ∀ c ∈ l, isDigitCh c = true) :
    findTwoLetterDigits l = none := by
  induction l with
  | nil => simp [findTwoLetterDigits]
  | cons c rest ih =>
    have hc : isUpperCh c = false := digit_not_upper (h c (by simp))
    have hrest : findTwoLetterDigits rest = none := ih (fun x hx => h x (by simp [hx]))
    simp only [findTwoLetterDigits]
    rw [hrest]
    match rest with
    | [] => simp [matchTwoLetterDigitsAt]
    | b :: rs => simp [matchTwoLetterDigitsAt, hc]

/-- The canonicalizer fixes any two-letters-then-digits string. -/
lemma canon_fix_shape1 {a b : Char} {ds : Str} (ha : isUpperCh a = true)
    (hb : isUpperCh b = true) (hne : ds ≠ []) (hds : ∀ c ∈ ds, isDigitCh c = true) :
    canonicalizePoleID (a :: b :: ds) = a :: b :: ds := by
  have htw : ds.takeWhile isDigitCh = ds := List.takeWhile_eq_self_iff.mpr hds
  simp only [canonicalizePoleID, findTwoLetterDigits, matchTwoLetterDigitsAt, ha, hb]
  simp [htw, hne]

/-- Shape of an anchored `[A-Z]{1,2}[0-9]+` match at a position where
the two-letter pattern failed. -/
lemma matchLetterDigitsAt_shape2 {l m : Str} (h1 : matchLetterDigitsAt l = some m)
    (h2 : matchTwoLetterDigitsAt l = none) :
    ∃ a b ds, m = a :: b :: ds ∧ isUpperCh a = true ∧ isDigitCh b = true ∧
      ∀ c ∈ ds, isDigitCh c = true := by
  match l with
  | [] => simp [matchLetterDigitsAt] at h1
  | [a] => simp [matchLetterDigitsAt] at h1
  | a :: b :: rest =>
    simp only [matchLetterDigitsAt] at h1
    split at h1
    · next ha =>
      split at h1
      · next hb =>
        simp only [matchTwoLetterDigitsAt, ha, hb, Bool.and_self, if_true] at h2
        split at h1
        · simp at h1
        · next hds =>
          split at h2
          · simp_all
          · simp at h2
      · split at h1
        · next hb2 =>
          refine ⟨a, b, rest.takeWhile isDigitCh, by simpa using h1.symm, ha, hb2, ?_⟩
          intro c hc
          exact List.mem_takeWhile_imp hc
        · simp at h1
    · simp at h1

/-- Shape of an unanchored `[A-Z]{1,2}[0-9]+` hit when the two-letter
search failed everywhere. -/
lemma findLetterDigits_shape2 {s m : Str} (h2 : findTwoLetterDigits s = none)
    (h1 : findLetterDigits s = some m) :
    ∃ a b ds, m = a :: b :: ds ∧ isUpperCh a = true ∧ isDigitCh b = true ∧
      ∀ c ∈ ds, isDigitCh c = true := by
  induction s with
  | nil => simp [findLetterDigits] at h1
  | cons c rest ih =>
    obtain ⟨hm2, hrest2⟩ := findTwoLetterDigits_none_parts h2
    simp only [findLetterDigits] at h1
    split at h1
    · next hm => exact matchLetterDigitsAt_shape2 (by rw [hm, h1]) hm2
    · exact ih hrest2 h1

/-- The canonicalizer fixes any letter-then-digits string. -/
lemma canon_fix_shape2 {a b : Char} {ds : Str} (ha : isUpperCh a = true)
    (hb : isDigitCh b = true) (hds : ∀ c ∈ ds, isDigitCh c = true) :
    canonicalizePoleID (a :: b :: ds) = a :: b :: ds := by
  have htw : ds.takeWhile isDigitCh = ds := List.takeWhile_eq_self_iff.mpr hds
  have hbds : ∀ c ∈ b :: ds, isDigitCh c = true := by
    intro c hc
    rcases List.mem_cons.mp hc with h | h
    · exact h ▸ hb
    · exact hds c h
  have hnone : findTwoLetterDigits (a :: b :: ds) = none := by
    have h1 : matchTwoLetterDigitsAt (a :: b :: ds) = none := by
      simp [matchTwoLetterDigitsAt, digit_not_upper hb]
    have hstep : findTwoLetterDigits (a :: b :: ds) =
        match matchTwoLetterDigitsAt (a :: b :: ds) with
        | some m => some m
        | none => findTwoLetterDigits (b :: ds) := rfl
    rw [hstep, h1]
    exact allDigits_findTwoLetterDigits_none hbds
  simp only [canonicalizePoleID, hnone]
  simp only [findLetterDigits, matchLetterDigitsAt, ha, digit_not_upper hb, hb]
  simp [htw]

/-- Claim C5, counterexample: the normalizer is not idempotent.  The
numeric-dash fallback strips one `digits-dash` prefix per application:
`"1-2-abc"` normalizes to `"2-abc"`, which normalizes again to
`"abc"`. -/
theorem canonicalizePoleID_not_idempotent :
    canonicalizePoleID (canonicalizePoleID (str "1-2-abc")) ≠
      canonicalizePoleID (str "1-2-abc") := by
  decide

/-- Claim C5, amended: the identifier normalizer is idempotent on empty
input and on every string from which one of its two regex extractions
succeeds; it is not idempotent in general (the numeric-dash prefix
strip removes one prefix per application). -/
theorem canonicalizePoleID_idempotent_on_extractions (s : Str)
    (h : (findTwoLetterDigits s).isSome ∨ (findLetterDigits s).isSome ∨ s = []) :
    canonicalizePoleID (canonicalizePoleID s) = canonicalizePoleID s := by
  by_cases hs : s = []
  · subst hs
    decide
  · rcases hm : findTwoLetterDigits s with _ | m
    · rcases hl : findLetterDigits s with _ | m
      · exfalso
        rcases h with h | h | h <;> simp_all
      · have hcanon : canonicalizePoleID s = m := by
          simp only [canonicalizePoleID, if_neg hs, hm, hl]
        obtain ⟨a, b, ds, hmeq, ha, hb, hds⟩ := findLetterDigits_shape2 hm hl
        rw [hcanon, hmeq]
        exact canon_fix_shape2 ha hb hds
    · have hcanon : canonicalizePoleID s = m := by
        simp only [canonicalizePoleID, if_neg hs, hm]
      obtain ⟨a, b, ds, hmeq, ha, hb, hne, hds⟩ := findTwoLetterDigits_shape hm
      rw [hcanon, hmeq]
      exact canon_fix_shape1 ha hb hne hds

/-- Witness: the amended idempotence at the concrete id `"1-PL100"`. -/
theorem canonicalizePoleID_idempotent_witness :
    canonicalizePoleID (canonicalizePoleID (str "1-PL100")) =
      canonicalizePoleID (str "1-PL100") :=
  canonicalizePoleID_idempotent_on_extractions (str "1-PL100") (Or.inl (by decide))

/-! ## Height parse/format round trip -/

/-- Claim C4: the round-trip law fails on the code; this evaluates both
sides at the failing input 247.  `formatHeightToString 247` renders
`20'-7"`, but `parseHeightToInches` runs `parseFloat` BEFORE the
feet-inches regex branch, and `parseFloat("20'-7\"")` returns the
numeric prefix 20, so the dedicated feet-inches branch (which would
return 247) is unreachable and the round trip yields 20, not 247. -/
theorem parse_format_roundtrip_fails_at_247 :
    formatHeightToString (some 247) = str "20'-7\"" ∧
      parseHeightToInches (str "20'-7\"") = some 20 ∧
      parseHeightToInches (formatHeightToString (some 247)) ≠ some 247 := by
  have hfmt : formatHeightToString (some 247) = str "20'-7\"" := by
    have h1 : (⌊(247 : ℚ) / 12⌋ : ℤ) = 20 := by norm_num
    have h2 : jsRound (jsRem 247 12) = 7 := by norm_num [jsRound, jsRem, jsTrunc]
    simp +decide [formatHeightToString, h1, h2, intToChars, natToChars, str]
  have hparse : parseHeightToInches (str "20'-7\"") = some 20 := by
    simp +decide [parseHeightToInches, jsTrim, jsParseFloat, parseFloatMag, str, digitsToNat]
  refine ⟨hfmt, hparse, ?_⟩
  rw [hfmt, hparse]
  simp

/-! ## Mid-span match scoring -/

/-- The best observation height difference is a minimum of absolute
values, hence nonnegative. -/
lemma bestHeightDiff_nonneg {obs : List WireObservation} {h : ℚ} {d : ℚ}
    (hd : bestHeightDiff obs h = some d) : 0 ≤ d := by
  induction obs generalizing d with
  | nil => simp [bestHeightDiff] at hd
  | cons o rest ih =>
    simp only [bestHeightDiff] at hd
    rcases ho : o.originalHeightInches with _ | v <;> rw [ho] at hd
    · exact ih hd
    · rcases hr : bestHeightDiff rest h with _ | r <;> rw [hr] at hd
      · simp at hd
        subst hd
        positivity
      · simp at hd
        subst hd
        exact le_min (abs_nonneg _) (ih hr)

/-- Claim C1, counterexample: the claim's scoring formula does not
match the code.  With an exact owner match, no type/alias/keyword
relation, and a single field observation 36 inches from the structural
height, the code scores 25 + max 0 (5 - 36/12) = 27 (its height bonus
reaches 0 only at a 60-inch difference), while the claimed formula
scores 25 + 0 = 25 (bonus zero from 24 inches on). -/
theorem midspanScore_claim_counterexample :
    computeMatchScore (str "acme") (str "aaa") (str "x") 0 scoringProbeWire = 27 ∧
      specMatchScore (str "acme") (str "aaa") (str "x") 0 scoringProbeWire = 25 ∧
      computeMatchScore (str "acme") (str "aaa") (str "x") 0 scoringProbeWire ≠
        specMatchScore (str "acme") (str "aaa") (str "x") 0 scoringProbeWire := by
  have h1 : computeMatchScore (str "acme") (str "aaa") (str "x") 0 scoringProbeWire = 27 := by
    simp +decide [computeMatchScore, scoringProbeWire, jsToLower, jsIncludes, strIsPrefix, str,
      companyAliasHit, keywordHit, heightBonus, bestHeightDiff]
    norm_num
  have h2 : specMatchScore (str "acme") (str "aaa") (str "x") 0 scoringProbeWire = 25 := by
    simp +decide [specMatchScore, scoringProbeWire, jsToLower, jsIncludes, strIsPrefix, str,
      ownerMatchScore, typeMatchScore, specAliasPairs, sideReferencesPair, bestHeightDiff]
  refine ⟨h1, h2, ?_⟩
  rw [h1, h2]
  norm_num

/-- Claim C1, amended: the mid-span match score is the sum of the owner
component (+25 exact, +15 partial either direction), the type component
(+20 exact, +10 partial), a single +10 company-alias bonus when the
attacher description and candidate owner reference a known alias pair
(at most once, however many pairs fire), a single +10 shared-keyword
bonus (fiber/service/drop/primary/neutral in both description and
candidate type), and a height-proximity bonus `max 0 (5 - diff/12)` —
at most +5, reaching 0 at a 60-inch difference — added only when a
field observation height exists and the best difference is under 60
inches. -/
theorem computeMatchScore_eq_components (so st desc : Str) (hq : ℚ) (w : WireData) :
    computeMatchScore so st desc hq w =
      ownerMatchScore w.company so + typeMatchScore w.cableType st +
        companyAliasBonus (jsToLower desc) (jsToLower w.company) +
        keywordBonus (jsToLower desc) (jsToLower w.cableType) +
        heightBonus w.midspanObservations hq ∧
      0 ≤ heightBonus w.midspanObservations hq ∧
      heightBonus w.midspanObservations hq ≤ 5 ∧
      (bestHeightDiff w.midspanObservations hq = none →
        heightBonus w.midspanObservations hq = 0) ∧
      (∀ d, bestHeightDiff w.midspanObservations hq = some d → 60 ≤ d →
        heightBonus w.midspanObservations hq = 0) := by
  refine ⟨?_, ?_, ?_, ?_, ?_⟩
  · simp only [computeMatchScore, ownerMatchScore, typeMatchScore, companyAliasBonus,
      keywordBonus]
  · simp only [heightBonus]
    split
    · norm_num
    · split
      · norm_num
      · split
        · exact le_max_left 0 _
        · norm_num
  · simp only [heightBonus]
    split
    · norm_num
    · split
      · norm_num
      · next d hd =>
        split
        · have h0 : (0:ℚ) ≤ d := bestHeightDiff_nonneg hd
          have h5 : 5 - d / 12 ≤ 5 := by
            linarith [div_nonneg h0 (by norm_num : (0:ℚ) ≤ 12)]
          simp [max_le_iff, h5]
        · norm_num
  · intro hnone
    simp only [heightBonus]
    split
    · rfl
    · rw [hnone]
  · intro d hd h60
    simp only [heightBonus]
    split
    · rfl
    · rw [hd]
      simp only [if_neg (not_lt.mpr h60)]

/-- Witness: the amended scoring decomposition applied to the concrete
probe candidate. -/
theorem computeMatchScore_eq_components_witness :
    computeMatchScore (str "acme") (str "aaa") (str "x") 0 scoringProbeWire =
      ownerMatchScore scoringProbeWire.company (str "acme") +
        typeMatchScore scoringProbeWire.cableType (str "aaa") +
        companyAliasBonus (jsToLower (str "x")) (jsToLower scoringProbeWire.company) +
        keywordBonus (jsToLower (str "x")) (jsToLower scoringProbeWire.cableType) +
        heightBonus scoringProbeWire.midspanObservations 0 :=
  (computeMatchScore_eq_components (str "acme") (str "aaa") (str "x") 0 scoringProbeWire).1

/-! ## Underground override -/

/-- Claim C3: whenever any connection matching the span's endpoints (or,
for REF spans, any connection touching the pole) is flagged as an
underground path, the mid-span result is the sentinel `"UG"`,
regardless of the wires, scores, or any other input. -/
theorem underground_override (processed : ProcessedResults)
    (fromPoleId toPoleId attacherDescription : Str) (sw : SpidaWire) (isRef : Bool)
    (h : ∃ c ∈ processed.connections,
      connTouchesForUG isRef fromPoleId toPoleId c = true ∧ isUndergroundConn c = true) :
    getMidSpanProposedHeight (some processed) fromPoleId toPoleId attacherDescription sw
      isRef = str "UG" := by
  obtain ⟨c, hc, ht, hu⟩ := h
  have hany : (processed.connections.filter
      (connTouchesForUG isRef fromPoleId toPoleId)).any isUndergroundConn = true := by
    rw [List.any_eq_true]
    exact ⟨c, List.mem_filter.mpr ⟨hc, ht⟩, hu⟩
  simp only [getMidSpanProposedHeight, hany, if_true]

/-- Witness: a span between `PL100` and `PL200` whose connection is an
`underground_path` resolves to `"UG"` even though its only wire would
be a perfect match. -/
theorem underground_override_witness :
    getMidSpanProposedHeight
      (some ⟨[⟨str "PL100", str "PL200", str "underground_path", false,
        [⟨str "CPS", str "Primary", WireCategory.CPS_ELECTRICAL, [⟨some 300, some 310⟩],
          some 300, some 310⟩]⟩]⟩)
      (str "PL100") (str "PL200") (str "CPS Primary")
      ⟨none, some (str "CPS"), some (str "Primary"), none, none, some 7⟩ false = str "UG" :=
  underground_override _ _ _ _ _ false
    ⟨⟨str "PL100", str "PL200", str "underground_path", false,
        [⟨str "CPS", str "Primary", WireCategory.CPS_ELECTRICAL, [⟨some 300, some 310⟩],
          some 300, some 310⟩]⟩, by simp, by decide, by decide⟩

/-! ## Threshold and best-match selection -/

/-- Inserting into the stable descending sort never yields an empty list. -/
lemma insertByScore_ne_nil (m : WireMatch) (l : List WireMatch) : insertByScore m l ≠ [] := by
  cases l with
  | nil => simp [insertByScore]
  | cons x xs =>
    simp only [insertByScore]
    split <;> simp

/-- The stable sort is empty exactly on the empty list. -/
lemma sortByScoreDesc_eq_nil_iff {l : List WireMatch} : sortByScoreDesc l = [] ↔ l = [] := by
  cases l with
  | nil => simp [sortByScoreDesc]
  | cons x xs =>
    simp only [sortByScoreDesc]
    exact ⟨fun h => absurd h (insertByScore_ne_nil _ _), fun h => by simp at h⟩

/-- The head of the stable descending sort is the first-encountered
element attaining the maximum score. -/
lemma sortByScoreDesc_head {l : List WireMatch} {m : WireMatch} {ms : List WireMatch}
    (h : sortByScoreDesc l = m :: ms) :
    ∃ l1 l2, l = l1 ++ m :: l2 ∧ (∀ u ∈ l, u.score ≤ m.score) ∧
      ∀ u ∈ l1, u.score < m.score := by
  induction l generalizing m ms with
  | nil => simp [sortByScoreDesc] at h
  | cons x rest ih =>
    simp only [sortByScoreDesc] at h
    cases hrest : sortByScoreDesc rest with
    | nil =>
      have hrnil : rest = [] := sortByScoreDesc_eq_nil_iff.mp hrest
      rw [hrest] at h
      simp only [insertByScore] at h
      obtain ⟨hm, hms⟩ := List.cons.inj h
      subst hrnil
      exact ⟨[], [], by simp [hm], by simp [hm], by simp⟩
    | cons y ys =>
      rw [hrest] at h
      simp only [insertByScore] at h
      obtain ⟨r1, r2, hsplit, hle, hlt⟩ := ih hrest
      split at h
      · next hyx =>
        obtain ⟨hm, hms⟩ := List.cons.inj h
        subst hm
        refine ⟨[], rest, by simp, ?_, by simp⟩
        intro u hu
        rcases List.mem_cons.mp hu with h | h
        · exact le_of_eq (by rw [h])
        · exact le_trans (hle u h) hyx
      · next hyx =>
        obtain ⟨hm, hms⟩ := List.cons.inj h
        subst hm
        have hxlt : x.score < y.score := lt_of_not_le hyx
        refine ⟨x :: r1, r2, by simp [hsplit], ?_, ?_⟩
        · intro u hu
          rcases List.mem_cons.mp hu with h | h
          · exact le_of_lt (h ▸ hxlt)
          · exact hle u h
        · intro u hu
          rcases List.mem_cons.mp hu with h | h
          · exact h ▸ hxlt
          · exact hlt u h

/-- A decomposition of a `filterMap` image lifts to a decomposition of
the original list. -/
lemma filterMap_split {α β : Type} {f : α → Option β} {l : List α} {l1 : List β} {b : β}
    {l2 : List β} (h : l.filterMap f = l1 ++ b :: l2) :
    ∃ m1 a m2, l = m1 ++ a :: m2 ∧ f a = some b ∧ m1.filterMap f = l1 := by
  induction l generalizing l1 with
  | nil => simp at h
  | cons x rest ih =>
    rcases hfx : f x with _ | y
    · rw [List.filterMap_cons_none hfx] at h
      obtain ⟨m1, a, m2, hsplit, hfa, hm1⟩ := ih h
      exact ⟨x :: m1, a, m2, by simp [hsplit], hfa, by simp [List.filterMap_cons_none hfx, hm1]⟩
    · rw [List.filterMap_cons_some hfx] at h
      cases l1 with
      | nil =>
        simp at h
        obtain ⟨hyb, hrest⟩ := h
        exact ⟨[], x, rest, by simp, by rw [hfx, hyb], by simp⟩
      | cons z l1t =>
        simp at h
        obtain ⟨hyz, hrest⟩ := h
        obtain ⟨m1, a, m2, hsplit, hfa, hm1⟩ := ih hrest
        exact ⟨x :: m1, a, m2, by simp [hsplit],
          hfa, by simp [List.filterMap_cons_some hfx, hm1, hyz]⟩

/-- Every candidate at or above the threshold enters `wireMatches`. -/
lemma collectWireMatches_mem {so st desc : Str} {hq : ℚ} {ws : List WireData}
    {w : WireData} (hw : w ∈ ws) (hs : 10 ≤ computeMatchScore so st desc hq w) :
    (⟨w, computeMatchScore so st desc hq w⟩ : WireMatch) ∈
      collectWireMatches so st desc hq ws := by
  simp only [collectWireMatches, List.mem_filterMap]
  exact ⟨w, hw, by simp [hs]⟩

/-- Shape of one accepted `wireMatches` entry. -/
lemma collectWireMatches_entry {so st desc : Str} {hq : ℚ} {w : WireData} {m : WireMatch}
    (h : (if 10 ≤ computeMatchScore so st desc hq w
        then some (⟨w, computeMatchScore so st desc hq w⟩ : WireMatch) else none) = some m) :
    m = ⟨w, computeMatchScore so st desc hq w⟩ ∧ 10 ≤ computeMatchScore so st desc hq w := by
  split at h
  · next hs => exact ⟨(Option.some.inj h).symm, hs⟩
  · simp at h

/-- Claim C2: with the span's connection located and no underground
override, a candidate scoring below 10 is never selected and if every
candidate scores below 10 the mid-span value is the no-data result
`"N/A"`; a selected winner scores at least 10 (so exactly 10 is
accepted), beats every accepted candidate's score, and precedes every
equally-scoring accepted candidate (first-encountered tie-break). -/
theorem midspan_threshold_and_selection (processed : ProcessedResults)
    (fromPoleId toPoleId attacherDescription : Str) (sw : SpidaWire) (isRef : Bool)
    (conn : ConnectionData)
    (hnoUG : (processed.connections.filter
      (connTouchesForUG isRef fromPoleId toPoleId)).any isUndergroundConn = false)
    (hconn : (if isRef then
        findRefConnection fromPoleId attacherDescription processed.connections
      else findDirectConnection fromPoleId toPoleId processed.connections) = some conn) :
    ((∀ w ∈ conn.wires, computeMatchScore (spidaOwnerOf sw) (spidaTypeOf sw)
        attacherDescription (spidaHeightInchesOf sw) w < 10) →
      getMidSpanProposedHeight (some processed) fromPoleId toPoleId attacherDescription sw
        isRef = str "N/A") ∧
    (∀ w, pickBestWire (spidaOwnerOf sw) (spidaTypeOf sw) attacherDescription
        (spidaHeightInchesOf sw) conn.wires = some w →
      getMidSpanProposedHeight (some processed) fromPoleId toPoleId attacherDescription sw
          isRef = resolveMatchedWire w ∧
        w ∈ conn.wires ∧
        10 ≤ computeMatchScore (spidaOwnerOf sw) (spidaTypeOf sw) attacherDescription
          (spidaHeightInchesOf sw) w ∧
        (∀ u ∈ conn.wires, 10 ≤ computeMatchScore (spidaOwnerOf sw) (spidaTypeOf sw)
            attacherDescription (spidaHeightInchesOf sw) u →
          computeMatchScore (spidaOwnerOf sw) (spidaTypeOf sw) attacherDescription
            (spidaHeightInchesOf sw) u ≤ computeMatchScore (spidaOwnerOf sw) (spidaTypeOf sw)
            attacherDescription (spidaHeightInchesOf sw) w) ∧
        ∃ l1 l2, conn.wires = l1 ++ w :: l2 ∧
          ∀ u ∈ l1, 10 ≤ computeMatchScore (spidaOwnerOf sw) (spidaTypeOf sw)
              attacherDescription (spidaHeightInchesOf sw) u →
            computeMatchScore (spidaOwnerOf sw) (spidaTypeOf sw) attacherDescription
              (spidaHeightInchesOf sw) u < computeMatchScore (spidaOwnerOf sw)
              (spidaTypeOf sw) attacherDescription (spidaHeightInchesOf sw) w) := by
  constructor
  · intro hall
    have hcollect : collectWireMatches (spidaOwnerOf sw) (spidaTypeOf sw) attacherDescription
        (spidaHeightInchesOf sw) conn.wires = [] := by
      simp only [collectWireMatches, List.filterMap_eq_nil_iff]
      intro w hw
      simp [not_le.mpr (hall w hw)]
    have hpick : pickBestWire (spidaOwnerOf sw) (spidaTypeOf sw) attacherDescription
        (spidaHeightInchesOf sw) conn.wires = none := by
      simp [pickBestWire, hcollect, sortByScoreDesc]
    simp only [getMidSpanProposedHeight, hnoUG, Bool.false_eq_true, if_false, hconn, hpick]
  · intro w hw
    have hpick := hw
    simp only [pickBestWire] at hpick
    rcases hsort : sortByScoreDesc (collectWireMatches (spidaOwnerOf sw) (spidaTypeOf sw)
        attacherDescription (spidaHeightInchesOf sw) conn.wires) with _ | ⟨m, ms⟩
    · rw [hsort] at hpick
      simp at hpick
    · rw [hsort] at hpick
      simp only [Option.some.injEq] at hpick
      obtain ⟨l1m, l2m, hsplitm, hlem, hltm⟩ := sortByScoreDesc_head hsort
      obtain ⟨m1, a, m2, hsplit, hfa, hm1⟩ := filterMap_split hsplitm
      obtain ⟨hmeq, hsc⟩ := collectWireMatches_entry hfa
      have haw : a = w := by rw [hmeq] at hpick; rw [← hpick]
      subst haw
      have hresult : getMidSpanProposedHeight (some processed) fromPoleId toPoleId
          attacherDescription sw isRef = resolveMatchedWire a := by
        simp only [getMidSpanProposedHeight, hnoUG, Bool.false_eq_true, if_false, hconn,
          pickBestWire, hsort, hpick]
      refine ⟨hresult, by simp [hsplit], hsc, ?_, ?_⟩
      · intro u hu hsu
        have hmem := collectWireMatches_mem hu hsu
        have := hlem _ hmem
        rw [hmeq] at this
        simpa using this
      · refine ⟨m1, m2, hsplit, ?_⟩
        intro u hu hsu
        have humem : (⟨u, computeMatchScore (spidaOwnerOf sw) (spidaTypeOf sw)
            attacherDescription (spidaHeightInchesOf sw) u⟩ : WireMatch) ∈ l1m := by
          rw [← hm1]
          simp only [List.mem_filterMap]
          exact ⟨u, hu, by simp [hsu]⟩
        have := hltm _ humem
        rw [hmeq] at this
        simpa using this

/-- Witness: with only the score-0 candidate the result is the
no-data `"N/A"`; with the score-10 candidate present it is selected
(threshold inclusive) and its heights are used. -/
theorem midspan_threshold_and_selection_witness :
    getMidSpanProposedHeight (some ⟨[probeConnLow]⟩) (str "PL100") (str "PL200") (str "zzz")
        probeSpidaWire false = str "N/A" ∧
      getMidSpanProposedHeight (some ⟨[probeConn]⟩) (str "PL100") (str "PL200") (str "zzz")
        probeSpidaWire false = resolveMatchedWire probeWireTen := by
  have hs1 : computeMatchScore (spidaOwnerOf probeSpidaWire) (spidaTypeOf probeSpidaWire)
      (str "zzz") (spidaHeightInchesOf probeSpidaWire) probeWireLow = 0 := by
    simp +decide [computeMatchScore, probeSpidaWire, probeWireLow, spidaOwnerOf, spidaTypeOf,
      spidaHeightInchesOf, jsOrOptStr, jsOrOptNum, metersToFeet, jsToLower, jsIncludes,
      strIsPrefix, str, companyAliasHit, keywordHit, heightBonus, bestHeightDiff]
  have hs2 : computeMatchScore (spidaOwnerOf probeSpidaWire) (spidaTypeOf probeSpidaWire)
      (str "zzz") (spidaHeightInchesOf probeSpidaWire) probeWireTen = 10 := by
    simp +decide [computeMatchScore, probeSpidaWire, probeWireTen, spidaOwnerOf, spidaTypeOf,
      spidaHeightInchesOf, jsOrOptStr, jsOrOptNum, metersToFeet, jsToLower, jsIncludes,
      strIsPrefix, str, companyAliasHit, keywordHit, heightBonus, bestHeightDiff]
  constructor
  · refine (midspan_threshold_and_selection ⟨[probeConnLow]⟩ (str "PL100") (str "PL200")
      (str "zzz") probeSpidaWire false probeConnLow (by decide) (by decide)).1 ?_
    intro w hw
    simp only [probeConnLow] at hw
    simp at hw
    subst hw
    rw [hs1]
    norm_num
  · have hpick : pickBestWire (spidaOwnerOf probeSpidaWire) (spidaTypeOf probeSpidaWire)
        (str "zzz") (spidaHeightInchesOf probeSpidaWire) probeConn.wires =
          some probeWireTen := by
      simp only [pickBestWire, collectWireMatches, probeConn, List.filterMap_cons, hs1, hs2]
      norm_num [sortByScoreDesc, insertByScore]
    exact ((midspan_threshold_and_selection ⟨[probeConn]⟩ (str "PL100") (str "PL200")
      (str "zzz") probeSpidaWire false probeConn (by decide) (by decide)).2
      probeWireTen hpick).1

/-! ## Pole-wide lowest existing heights -/

/-- The running min/found fold of `_extractExistingMidspanData` computes
the per-category minima of the categorized wire heights. -/
lemma midspanFold_eq_minima (wires : List WireData) (c0 e0 : Option ℚ) :
    wires.foldl (fun (acc : Option ℚ × Option ℚ) w =>
      match w.lowestExistingMidspanHeight with
      | none => acc
      | some h =>
        if w.category = WireCategory.COMMUNICATION then (optMinInsert acc.1 h, acc.2)
        else if w.category = WireCategory.CPS_ELECTRICAL then (acc.1, optMinInsert acc.2 h)
        else acc) (c0, e0) =
    ((wires.filterMap comHeightOf).foldl optMinInsert c0,
      (wires.filterMap elecHeightOf).foldl optMinInsert e0) := by
  induction wires generalizing c0 e0 with
  | nil => simp
  | cons w rest ih =>
    simp only [List.foldl_cons, List.filterMap_cons]
    rcases hl : w.lowestExistingMidspanHeight with _ | h
    · simp only [comHeightOf, elecHeightOf, hl]
      exact ih c0 e0
    · by_cases hcom : w.category = WireCategory.COMMUNICATION
      · simp only [comHeightOf, elecHeightOf, hl, hcom, if_pos rfl]
        have hne : WireCategory.COMMUNICATION ≠ WireCategory.CPS_ELECTRICAL := by decide
        simp only [if_pos, if_neg hne]
        exact ih _ _
      · by_cases helec : w.category = WireCategory.CPS_ELECTRICAL
        · simp only [comHeightOf, elecHeightOf, hl, helec]
          have hne : WireCategory.CPS_ELECTRICAL ≠ WireCategory.COMMUNICATION := by decide
          simp only [if_neg hne, if_pos rfl]
          exact ih _ _
        · simp only [comHeightOf, elecHeightOf, hl, if_neg hcom, if_neg helec]
          exact ih _ _

/-- Claim C6, amended: the pole-wide lowest existing height per category
comes from the field survey only.  With no Katapult data or no matched
field node for the pole, both values are `"N/A"` regardless of any
structural-model heights (there is no structural fallback; the source
comments "no fallback to SPIDAcalc"); with field data present, each
value is the minimum `lowestExistingMidspanHeight` of that category
over aerial connections touching the pole's node. -/
theorem lowestExisting_field_only (kd : Option ProcessedResults) (node : KatapultNode)
    (processed : ProcessedResults) :
    extractExistingMidspanData kd none = ⟨str "N/A", str "N/A"⟩ ∧
      extractExistingMidspanData none (some node) = ⟨str "N/A", str "N/A"⟩ ∧
      extractExistingMidspanData (some processed) (some node) =
        (let wires := (((processed.connections.filter (fun c =>
            c.fromPoleId = jsOrOptStr node.id [] || c.toPoleId = jsOrOptStr node.id [])).filter
          (fun c => c.buttonType = str "aerial_path" ||
            jsIncludes c.buttonType (str "aerial"))).map ConnectionData.wires).flatten
        ⟨formatOrNA (listMinQ (wires.filterMap comHeightOf)),
          formatOrNA (listMinQ (wires.filterMap elecHeightOf))⟩) := by
  refine ⟨?_, ?_, ?_⟩
  · cases kd <;> rfl
  · rfl
  · simp only [extractExistingMidspanData, midspanFold_eq_minima, listMinQ, formatOrNA]

/-- Claim C6, counterexample: a pole with no field data but an available
structural communication height of 257 inches.  The claim's fallback
rule would report `21'-5"`; the code reports `"N/A"` — it never falls
back to the structural model. -/
theorem lowestExisting_fallback_counterexample :
    extractExistingMidspanData (some ⟨[]⟩) none = ⟨str "N/A", str "N/A"⟩ ∧
      specLowestExistingHeights none [(WireCategory.COMMUNICATION, 257)] =
        ⟨str "21'-5\"", str "N/A"⟩ ∧
      (extractExistingMidspanData (some ⟨[]⟩) none).com ≠
        (specLowestExistingHeights none [(WireCategory.COMMUNICATION, 257)]).com := by
  have hfmt : formatHeightToString (some 257) = str "21'-5\"" := by
    have h1 : (⌊(257 : ℚ) / 12⌋ : ℤ) = 21 := by norm_num
    have h2 : jsRound (jsRem 257 12) = 5 := by norm_num [jsRound, jsRem, jsTrunc]
    simp +decide [formatHeightToString, h1, h2, intToChars, natToChars, str]
  have hspec : specLowestExistingHeights none [(WireCategory.COMMUNICATION, 257)] =
      ⟨str "21'-5\"", str "N/A"⟩ := by
    simp +decide [specLowestExistingHeights, listMinQ, optMinInsert, hfmt]
  refine ⟨rfl, hspec, ?_⟩
  rw [hspec]
  decide

/-! ## Field-node lookup map: duplicate canonical ids -/

/-- Looking up the key just overwritten in place returns the new value. -/
lemma jsMapGet_map_overwrite (m : List (Str × KatapultNode)) (k : Str) (v : KatapultNode)
    (hany : m.any (fun p => p.1 = k) = true) :
    jsMapGet (m.map (fun p => if p.1 = k then (k, v) else p)) k = some v := by
  induction m with
  | nil => simp at hany
  | cons p rest ih =>
    by_cases hp : p.1 = k
    · simp [jsMapGet, List.find?_cons, hp]
    · have hrest : rest.any (fun q => q.1 = k) = true := by
        simp only [List.any_cons, hp] at hany
        simpa using hany
      simpa [jsMapGet, List.find?_cons, hp] using ih hrest

/-- Looking up a freshly appended key returns its value. -/
lemma jsMapGet_append_new (m : List (Str × KatapultNode)) (k : Str) (v : KatapultNode)
    (hnone : m.any (fun p => p.1 = k) = false) :
    jsMapGet (m ++ [(k, v)]) k = some v := by
  induction m with
  | nil => simp [jsMapGet, List.find?_cons]
  | cons p rest ih =>
    simp only [List.any_cons, Bool.or_eq_false_iff] at hnone
    simpa [jsMapGet, List.find?_cons, hnone.1] using ih (by simp [hnone.2])

/-- JS `Map.set` followed by `Map.get` on the same key yields the value
just set — the later write wins. -/
lemma jsMapGet_jsMapSet (m : List (Str × KatapultNode)) (k : Str) (v : KatapultNode) :
    jsMapGet (jsMapSet m k v) k = some v := by
  simp only [jsMapSet]
  split
  · next hany => exact jsMapGet_map_overwrite m k v hany
  · next hany =>
    refine jsMapGet_append_new m k v ?_
    rw [← Bool.not_eq_true]
    exact hany

/-- Claim C7, amended: when two field-survey nodes normalize to the same
canonical pole id, the node encountered LAST during map construction is
retained — the loop calls `Map.set` unconditionally, so each later node
overwrites an earlier one with the same canonical id. -/
theorem katapultLookup_last_wins (nodes : List KatapultNode) (n : KatapultNode) (pn : Str)
    (hpn : n.poleNumber = some pn) (hne : pn ≠ []) :
    jsMapGet (buildKatapultPoleLookupMap (nodes ++ [n])) (canonicalizePoleID pn) = some n := by
  have hbuild : buildKatapultPoleLookupMap (nodes ++ [n]) =
      jsMapSet (buildKatapultPoleLookupMap nodes) (canonicalizePoleID pn) n := by
    simp only [buildKatapultPoleLookupMap, List.foldl_append, List.foldl_cons, List.foldl_nil]
    rw [hpn]
    simp [hne]
  rw [hbuild]
  exact jsMapGet_jsMapSet _ _ _

/-- Claim C7, counterexample: nodes `node1` (pole number `PL100`) and
`node2` (pole number `1-PL100`) normalize to the same canonical id
`PL100`; the code's map retains `node2`, the last encountered, while
the claim's first-encountered policy would retain `node1`. -/
theorem katapultLookup_first_wins_counterexample :
    jsMapGet (buildKatapultPoleLookupMap
        [⟨some (str "node1"), some (str "PL100")⟩, ⟨some (str "node2"), some (str "1-PL100")⟩])
      (str "PL100") = some ⟨some (str "node2"), some (str "1-PL100")⟩ ∧
    jsMapGet (buildFirstWinsLookupMap
        [⟨some (str "node1"), some (str "PL100")⟩, ⟨some (str "node2"), some (str "1-PL100")⟩])
      (str "PL100") = some ⟨some (str "node1"), some (str "PL100")⟩ ∧
    (⟨some (str "node2"), some (str "1-PL100")⟩ : KatapultNode) ≠
      ⟨some (str "node1"), some (str "PL100")⟩ :=
  ⟨by decide, by decide, by decide⟩

/-- Witness: the last-wins rule applied to the concrete duplicate pair. -/
theorem katapultLookup_last_wins_witness :
    jsMapGet (buildKatapultPoleLookupMap
        [⟨some (str "node1"), some (str "PL100")⟩, ⟨some (str "node2"), some (str "1-PL100")⟩])
      (canonicalizePoleID (str "1-PL100")) = some ⟨some (str "node2"), some (str "1-PL100")⟩ :=
  katapultLookup_last_wins [⟨some (str "node1"), some (str "PL100")⟩]
    ⟨some (str "node2"), some (str "1-PL100")⟩ (str "1-PL100") rfl (by decide)

/-! ## Batch processing: per-pole error recovery and run status -/

/-- Closed form of the per-pole loop's fold: successes and errors
accumulate independently, in order. -/
lemma processPoleLocations_foldl {α : Type} (extract : PoleLocation → Except Str (Option α))
    (locations : List PoleLocation) (acc : List α × List ProcessingError) :
    locations.foldl (fun acc loc =>
      match extract loc with
      | Except.ok (some d) => (acc.1 ++ [d], acc.2)
      | Except.ok none => acc
      | Except.error _ =>
        (acc.1, acc.2 ++ [⟨str "POLE_PROCESSING_ERROR",
          str "Error processing pole " ++ loc.label⟩])) acc =
    (acc.1 ++ locations.filterMap (fun loc =>
        match extract loc with
        | Except.ok (some d) => some d
        | _ => none),
      acc.2 ++ locations.filterMap (fun loc =>
        match extract loc with
        | Except.error _ => some (⟨str "POLE_PROCESSING_ERROR",
            str "Error processing pole " ++ loc.label⟩ : ProcessingError)
        | _ => none)) := by
  induction locations generalizing acc with
  | nil => simp
  | cons loc rest ih =>
    simp only [List.foldl_cons, List.filterMap_cons]
    rcases hx : extract loc with e | od
    · simp only [hx]
      rw [ih]
      try simp
    · rcases od with _ | d
      · simp only [hx]
        rw [ih]
        try simp
      · simp only [hx]
        rw [ih]
        try simp

/-- Claim C8: a failing pole contributes exactly one
`POLE_PROCESSING_ERROR` naming its label and removes nothing else —
records are the successful extractions in order, errors the failing
poles in order, independent of one another; concretely, one throwing
pole (`P5`) among 10 yields 9 records and that single error entry. -/
theorem pole_errors_recovered {α : Type} (extract : PoleLocation → Except Str (Option α))
    (locations : List PoleLocation) :
    (processPoleLocations extract locations).1 = locations.filterMap (fun loc =>
        match extract loc with
        | Except.ok (some d) => some d
        | _ => none) ∧
    (processPoleLocations extract locations).2 = locations.filterMap (fun loc =>
        match extract loc with
        | Except.error _ => some (⟨str "POLE_PROCESSING_ERROR",
            str "Error processing pole " ++ loc.label⟩ : ProcessingError)
        | _ => none) ∧
    (let demo := processPoleLocations
      (fun loc => if loc.label = str "P5" then Except.error (str "boom")
        else Except.ok (some loc))
      ((List.range 10).map (fun i => ⟨str "P" ++ natToChars (i + 1)⟩))
     demo.1.length = 9 ∧
       demo.2 = [⟨str "POLE_PROCESSING_ERROR", str "Error processing pole P5"⟩]) := by
  refine ⟨?_, ?_, ?_⟩
  · simp [processPoleLocations, processPoleLocations_foldl]
  · simp [processPoleLocations, processPoleLocations_foldl]
  · constructor <;> decide

/-- Claim C10: for a structurally valid document, `processData` returns
`true` exactly when at least one pole record was produced; when every
pole's extraction throws or yields no record it returns `false` even
though every recorded error is pole-level (`POLE_PROCESSING_ERROR`),
and a missing `leads[0].locations` returns `false` with
`INVALID_STRUCTURE`. -/
theorem processData_true_iff_records {α : Type}
    (extract : PoleLocation → Except Str (Option α)) (locations : List PoleLocation) :
    ((processData extract (some locations)).1 = true ↔
      (processData extract (some locations)).2.1 ≠ []) ∧
    ((∀ loc ∈ locations, ∀ d, extract loc ≠ Except.ok (some d)) →
      (processData extract (some locations)).1 = false ∧
        ∀ e ∈ (processData extract (some locations)).2.2,
          e.code = str "POLE_PROCESSING_ERROR") ∧
    (processData extract none).1 = false ∧
    ∀ e ∈ (processData extract none).2.2, e.code = str "INVALID_STRUCTURE" := by
  refine ⟨?_, ?_, by simp [processData], ?_⟩
  · simp only [processData, decide_eq_true_eq]
    constructor
    · intro h
      intro hnil
      rw [hnil] at h
      simp at h
    · intro h
      have := List.length_pos.mpr h
      simpa using this
  · intro hall
    have hrec : (processPoleLocations extract locations).1 = [] := by
      have hspec := (pole_errors_recovered extract locations).1
      rw [hspec]
      rw [List.filterMap_eq_nil_iff]
      intro loc hloc
      rcases hx : extract loc with e | od
      · simp
      · rcases od with _ | d
        · simp
        · exact absurd hx (hall loc hloc d)
    constructor
    · simp [processData, hrec]
    · intro e he
      simp only [processData] at he
      have herr := (pole_errors_recovered extract locations).2.1
      rw [herr] at he
      simp only [List.mem_filterMap] at he
      obtain ⟨loc, _, hf⟩ := he
      rcases hx : extract loc with e2 | od <;> rw [hx] at hf
      · simp at hf
        rw [← hf]
      · rcases od with _ | d <;> simp at hf
  · intro e he
    simp only [processData] at he
    simp at he
    rw [he]

/-- Witness: a single-pole batch whose extraction throws returns `false`
with only pole-level errors. -/
theorem processData_true_iff_records_witness :
    (processData (fun _ => (Except.error (str "x") : Except Str (Option PoleLocation)))
      (some [⟨str "P1"⟩])).1 = false ∧
    ∀ e ∈ (processData (fun _ => (Except.error (str "x") : Except Str (Option PoleLocation)))
      (some [⟨str "P1"⟩])).2.2, e.code = str "POLE_PROCESSING_ERROR" :=
  ((processData_true_iff_records (fun _ => Except.error (str "x")) [⟨str "P1"⟩]).2).1
    (by intro loc hloc d; simp)

/-! ## Span records are never empty -/

/-- Claim C9: every emitted `SpanData` has a nonempty attachments list;
in particular a design whose wire map resolves no wire id at all (here:
no wires or equipments) emits no span records whatsoever — a wire end
point with no wires or with no resolvable wire ids is skipped, not
emitted empty. -/
theorem spans_have_attachments (kd : Option ProcessedResults) (poleId : Str)
    (recommendedDesign measuredDesign : Option SpidaDesign) :
    (∀ sp ∈ extractSpanData kd poleId recommendedDesign measuredDesign,
      sp.attachments ≠ []) ∧
    (∀ weps, extractSpanData kd poleId
      (some ⟨[], [], some weps⟩) measuredDesign = []) := by
  constructor
  · intro sp hsp
    rcases recommendedDesign with _ | recD
    · simp [extractSpanData] at hsp
    · rcases hw : recD.wireEndPoints with _ | weps
      · simp [extractSpanData, hw] at hsp
      · simp only [extractSpanData, hw, List.mem_filterMap] at hsp
        obtain ⟨wep, _, hf⟩ := hsp
        rcases hwires : wep.wires with _ | wireIds
        · rw [hwires] at hf
          simp at hf
        · rw [hwires] at hf
          simp only at hf
          split at hf
          · simp at hf
          · split at hf
            · simp at hf
            · next hne =>
              obtain hsp' := Option.some.inj hf
              rw [← hsp']
              simpa using hne
  · intro weps
    simp only [extractSpanData]
    rw [List.filterMap_eq_nil_iff]
    intro wep _
    rcases hwires : wep.wires with _ | wireIds
    · simp
    · simp only
      split
      · rfl
      · simp [createWireMap, jsMapGet, List.find?]

/-- Witness: a one-wire backspan emits exactly its nonempty span. -/
theorem spans_have_attachments_witness :
    (⟨str "Backspan", [⟨str "own desc", str "N/A", [], str "N/A"⟩]⟩ : SpanData).attachments ≠
      [] :=
  (spans_have_attachments none (str "PL100")
      (some ⟨[⟨some (str "w1"), some (str "own"), some (str "desc"), none, none, none⟩], [],
        some [⟨some (str "PREVIOUS_POLE"), none, none, some [str "w1"]⟩]⟩) none).1
    ⟨str "Backspan", [⟨str "own desc", str "N/A", [], str "N/A"⟩]⟩ (by decide)
